import Mathlib

/-! Overview.
A shallow embedding, in Lean 4, of the time-complexity analysis pipeline of
`integration-tests/time-complexity.py` (Mork project): trace folding of
profiler enter/exit events, aggregation to per-component mean durations,
joining with instance properties, least-squares model fitting bookkeeping,
and model selection.  File I/O, CLI parsing and chart rendering are external
collaborators and are not modelled; the numeric optimizer `scipy.curve_fit`
and the float primitives `np.log` / `**` are abstracted as parameters.
Machine floats are embedded as rationals; NaN-ness of the covariance matrix
is abstracted as the Boolean that the source tests with `np.isnan(...).any()`.
-/

/-- Embeds Python `statistics.mean` / pandas `.mean()` on a list of numbers:
sum divided by length.  (Python `statistics.mean` raises on an empty list;
the embedding returns 0 there, a case no modelled claim exercises.) -/
def pmean (l : List ℚ) : ℚ := l.sum / l.length

/-- Embeds Python `"/".join(names)`: empty for the empty list, otherwise the
elements concatenated with "/" between consecutive elements. -/
def joinSlash : List String → String
  | [] => ""
  | [a] => a
  | a :: b :: rest => a ++ "/" ++ joinSlash (b :: rest)

/-- Embeds `k.rsplit("/", 1) if "/" in k else ("", k)`: split a path at its
last slash into (parent, child); a path without a slash has empty parent. -/
def rsplitSlash (s : String) : String × String :=
  let cs := s.toList
  if cs.contains '/' then
    let rev := cs.reverse
    let child := (rev.takeWhile (fun c => c ≠ '/')).reverse
    let parent := ((rev.dropWhile (fun c => c ≠ '/')).tail).reverse
    (parent.asString, child.asString)
  else ("", s)

/-- Embeds pandas `Series.unique()` / first-occurrence deduplication: keeps
the first occurrence of each element, in encounter order. -/
def pdUnique (l : List String) : List String :=
  l.foldl (fun acc c => if c ∈ acc then acc else acc ++ [c]) []

/-- Decidable equality of `Except` results, so that concrete runs of the
embedded pipeline can be checked by evaluation. -/
instance exceptDecEq {ε α : Type} [DecidableEq ε] [DecidableEq α] :
    DecidableEq (Except ε α)
  | .error e1, .error e2 =>
    if h : e1 = e2 then .isTrue (by rw [h])
    else .isFalse (fun hh => h (Except.error.inj hh))
  | .error _, .ok _ => .isFalse (fun hh => Except.noConfusion hh)
  | .ok _, .error _ => .isFalse (fun hh => Except.noConfusion hh)
  | .ok a1, .ok a2 =>
    if h : a1 = a2 then .isTrue (by rw [h])
    else .isFalse (fun hh => h (Except.ok.inj hh))

/-- One profiler event, an element of a trace document's `timeData` list:
`{'when': ns timestamp, 'enter': bool, 'clazz': str, 'method': str}`. -/
structure Event where
  when : Int
  enter : Bool
  clazz : String
  method : String
  deriving Repr, DecidableEq

/-- Embeds `f"{i['clazz']}::{i['method']}"`, the qualified name of an event. -/
def qname (e : Event) : String := e.clazz ++ "::" ++ e.method

/-- Embeds `get_full_name(stack)` = `"/".join(name for name, _ in stack)`.
The Lean stack keeps the most recently pushed frame at the HEAD, so the
Python list order (oldest first) is the reverse of the Lean list. -/
def get_full_name (stack : List (String × Int)) : String :=
  joinSlash ((stack.map Prod.fst).reverse)

/-- The ways the event-folding loop of `fold_profiler_data` can raise:
`stackMismatch` embeds `raise Exception(f"Unexpected stack frame: ...")`,
`emptyPop` embeds the `IndexError` that `stack.pop()` raises on an empty
stack.  The source performs no end-of-trace stack check, so there is no
truncated-trace case. -/
inductive FoldError where
  | stackMismatch (got expected : String)
  | emptyPop
  deriving Repr, DecidableEq

/-- The inner per-event loop of `fold_profiler_data` (the `for i in data:`
loop), on events already sorted by timestamp.  State: the frame stack
(most recent at head) and the records appended so far as (call path,
elapsed millis) pairs in emission order (flattening `defaultdict(list)`
while remembering insertion order).  On an enter event a frame is pushed;
on an exit event the full name of the current stack (including the frame
being closed) is computed, the top frame is popped — an empty stack raises
`emptyPop` at this point, before any name comparison — the popped frame's
name is checked against the event's, and the elapsed time
`(when - start)/1000000` is recorded under the computed path.  When the
events run out, whatever stack remains is returned untouched: the source
never inspects it. -/
def foldEvents : List Event → List (String × Int) → List (String × ℚ) →
    Except FoldError (List (String × ℚ) × List (String × Int))
  | [], stack, acc => .ok (acc, stack)
  | e :: rest, stack, acc =>
    let name := qname e
    if e.enter then
      foldEvents rest ((name, e.when) :: stack) acc
    else
      let current := get_full_name stack
      match stack with
      | [] => .error .emptyPop
      | start :: stack' =>
        if name ≠ start.1 then
          .error (.stackMismatch name start.1)
        else
          foldEvents rest stack'
            (acc ++ [(current, ((e.when : ℚ) - (start.2 : ℚ)) / 1000000)])

/-- One eligible profiler trace document: `{instanceId, timeData}`.  The
filename filter (`.json` containing both the `bestalg` and `bestiter` tags)
is an external eligibility concern; the embedding receives the already
eligible documents as a list. -/
structure InstanceDoc where
  instanceId : String
  timeData : List Event
  deriving Repr

/-- One row of the aggregated `timestats` table appended per call path:
`{"instance", "component", "parent", "child", "time"}` (the `instance`
column is named `instanceId` here because `instance` is a Lean keyword). -/
structure TimeRow where
  instanceId : String
  component : String
  parent : String
  child : String
  time : ℚ
  deriving Repr, DecidableEq

/-- Embeds the `defaultdict(list)` grouping of the recorded (path, elapsed)
pairs: keys in first-insertion order, each mapped to its values in
recording order. -/
def groupByKey (recs : List (String × ℚ)) : List (String × List ℚ) :=
  (pdUnique (recs.map Prod.fst)).map
    (fun k => (k, recs.filterMap (fun r => if r.1 == k then some r.2 else none)))

/-- The body of the `for f in os.listdir(path)` loop of `fold_profiler_data`
for one eligible document: sort `timeData` by `when` (Python `list.sort` is
a stable sort, embedded as the stable `List.insertionSort`, which produces
the same list for any total transitive comparison), fold the events (the
leftover stack, if any, is discarded unexamined), then emit one `TimeRow`
per recorded call path with `parent, child = k.rsplit("/", 1)` and the
mean of its duration list. -/
def processDoc (doc : InstanceDoc) : Except FoldError (List TimeRow) := do
  let data := List.insertionSort (fun a b => a.when ≤ b.when) doc.timeData
  let folded ← foldEvents data [] []
  let dict_data := groupByKey folded.1
  .ok (dict_data.map (fun kv =>
    let pc := rsplitSlash kv.1
    { instanceId := doc.instanceId, component := kv.1,
      parent := pc.1, child := pc.2, time := pmean kv.2 }))

/-- Sequential processing of the documents of `fold_profiler_data`: an
exception raised while processing one document propagates out of the whole
loop (the source has no try/except), so any per-document error aborts the
entire batch. -/
def fold_profiler_data_go : List InstanceDoc → Except FoldError (List TimeRow)
  | [] => .ok []
  | d :: ds => do
    let rows ← processDoc d
    let rest ← fold_profiler_data_go ds
    .ok (rows ++ rest)

/-- The comparison of the final
`pd.DataFrame(timestats).sort_values(by=["instance", "component"])`:
lexicographic on (instance id, component). -/
def rowLe (r1 r2 : TimeRow) : Prop :=
  r1.instanceId < r2.instanceId ∨
    (r1.instanceId = r2.instanceId ∧ r1.component ≤ r2.component)

instance : DecidableRel rowLe := fun _ _ =>
  inferInstanceAs (Decidable (_ ∨ _))

/-- Embeds `fold_profiler_data`: process every eligible document, collect
all rows, and sort them stably by (instance, component). -/
def fold_profiler_data (docs : List InstanceDoc) : Except FoldError (List TimeRow) :=
  (fold_profiler_data_go docs).map (fun rows => List.insertionSort rowLe rows)

/-- Embeds the `Fit` class: candidate label, the instance property the fit
was computed against, its R², the fitted scale parameter, and the predicted
curve samples (the `data` frame `{"x": x, "y": y_estimated}`).  The scipy
diagnostic dictionary `dic` is external optimizer output and not modelled. -/
structure Fit where
  name : String
  instance_prop : String
  r2 : ℚ
  popt : ℚ
  data : List (ℚ × ℚ)
  deriving Repr, DecidableEq

/-- The part of `scipy.optimize.curve_fit`'s output that
`calculate_fitting_func` consumes: the fitted parameter `popt[0]` and
whether the parameter covariance matrix contains NaN entries (the Boolean
the source tests with `np.isnan(pcov).any()`).  The optimizer itself is an
external numeric collaborator. -/
structure CurveFitResult where
  popt : ℚ
  pcovHasNaN : Bool
  deriving Repr, DecidableEq

/-- Embeds `calculate_fitting_func`, with the curve-fit output supplied as
`cf`: reject (return none) when the covariance matrix has NaN values;
otherwise predict `y_estimated = f(x, popt)`, compute
`ss_res = Σ (y - y_estimated)²`, `ss_tot = Σ (y - mean y)²`, and
`r2 = 1 - ss_res / ss_tot`, unclamped.  The source also substitutes the
rounded coefficient into the display label (`f_name.replace("a", ...)`), a
float-formatting presentation detail not modelled: `name` keeps the
catalog label. -/
def calculate_fitting_func (x y : List ℚ) (f_name : String) (f : ℚ → ℚ → ℚ)
    (instance_property : String) (cf : CurveFitResult) : Option Fit :=
  if cf.pcovHasNaN then none
  else
    let y_estimated := x.map (fun xi => f xi cf.popt)
    let ss_res := ((y.zip y_estimated).map (fun p => (p.1 - p.2) ^ 2)).sum
    let ss_tot := (y.map (fun yi => (yi - pmean y) ^ 2)).sum
    let r2 := 1 - ss_res / ss_tot
    some { name := f_name, instance_prop := instance_property, r2 := r2,
           popt := cf.popt, data := x.zip y_estimated }

/-- Embeds `get_functions()`: the fixed, ordered candidate catalog.  The
float primitives `np.log` and `2 ** x` are abstracted as the parameters
`log` and `pow2`; `np.full(x.size, a)` is the pointwise constant. -/
def get_functions (log pow2 : ℚ → ℚ) : List (String × (ℚ → ℚ → ℚ)) :=
  [ ("a", fun _ a => a),
    ("a \\cdot \\log(n)", fun x a => a * log x),
    ("a \\cdot n", fun x a => a * x),
    ("a \\cdot n \\log(n)", fun x a => a * x * log x),
    ("a \\cdot n^2", fun x a => a * x ^ 2),
    ("a \\cdot 2^n", fun x a => a * pow2 x) ]

/-- One row of the instance-properties table: the unique instance
identifier `id` plus the numeric value of each property column. -/
structure InstRow where
  id : String
  val : String → ℚ

/-- The right join
`x.set_index("id").join(y.set_index("instance"), how="right")` inside
`join_instance_timestats`: take the timing rows of the requested component
and attach to each the instance's property value — a timing row whose id
is absent from the property table gets a missing (NaN, here `none`)
property value.  Instance ids are unique keys of the property table; the
embedding looks up the first matching row. -/
def joinedRows (instances : List InstRow) (timestats : List TimeRow)
    (component_name instance_property : String) : List (Option ℚ × ℚ) :=
  let y := (timestats.filter (fun r => r.component == component_name)).map
    (fun r => (r.instanceId, r.time))
  y.map (fun it =>
    ((instances.find? (fun row => row.id == it.1)).map
      (fun row => row.val instance_property), it.2))

/-- The mean `time` of the joined rows whose property value is `k` — what
pandas `groupby(instance_property).mean()` assigns to group key `k`. -/
def groupMean (xy : List (Option ℚ × ℚ)) (k : ℚ) : ℚ :=
  pmean (xy.filterMap (fun it => if it.1 == some k then some it.2 else none))

/-- Embeds `join_instance_timestats`: right-join the property values onto
the component's timing rows by instance id, then
`sort_values(by=[instance_property]).groupby(instance_property).mean()`:
pandas `groupby` sorts the distinct keys ascending and silently drops NaN
(`none`) keys, and `.mean()` averages `time` within each key.  The
intermediate `sort_values` cannot affect that result, since the group keys
are sorted by `groupby` itself and the mean is order-insensitive, so the
embedding computes the grouped result directly. -/
def join_instance_timestats (instances : List InstRow) (timestats : List TimeRow)
    (component_name instance_property : String) : List (ℚ × ℚ) :=
  let xy := joinedRows instances timestats component_name instance_property
  let keys := (xy.filterMap Prod.fst).dedup
  let skeys := List.insertionSort (fun a b : ℚ => a ≤ b) keys
  skeys.map (fun k => (k, groupMean xy k))

/-- The lines printed by `join_instance_timestats`: the source function body
contains no print or warning call of any kind, so the log is empty for
every input — in particular no warning is emitted when a timing row's
instance is absent from the property table and silently dropped. -/
def join_instance_timestats_log (_instances : List InstRow) (_timestats : List TimeRow)
    (_component_name _instance_property : String) : List String := []

/-- The `for k, v in fitting_funcs.items()` loop of
`calculate_fitting_funcs`: build the series for the (component, property)
pair, run `calculate_fitting_func` for every catalog entry in declaration
order (`cf` supplies the external curve-fit output per candidate label),
and keep the successful fits (`if fit:` — a `Fit` object is always
truthy). -/
def surviving_fits (cf : String → CurveFitResult) (log pow2 : ℚ → ℚ)
    (instances : List InstRow) (timestats : List TimeRow)
    (component_name instance_property : String) : List Fit :=
  let fitting_funcs := get_functions log pow2
  let xy := join_instance_timestats instances timestats component_name instance_property
  let x := xy.map Prod.fst
  let y := xy.map Prod.snd
  fitting_funcs.filterMap
    (fun kv => calculate_fitting_func x y kv.1 kv.2 instance_property (cf kv.1))

/-- Embeds `calculate_fitting_funcs`: the surviving fits sorted by R²
descending.  Python `fits.sort(key=lambda e: e.r2, reverse=True)` is a
stable sort whose reversed comparison still keeps ties in original
(catalog) order; so does the stable `List.insertionSort` under the
reversed comparison. -/
def calculate_fitting_funcs (cf : String → CurveFitResult) (log pow2 : ℚ → ℚ)
    (instances : List InstRow) (timestats : List TimeRow)
    (component_name instance_property : String) : List Fit :=
  List.insertionSort (fun a b : Fit => b.r2 ≤ a.r2)
    (surviving_fits cf log pow2 instances timestats component_name instance_property)

/-- The way the model-selection code can raise: the `IndexError` from
`fits[0]` on an empty fit list (in `find_best_instance_property` and in
`analyze_complexity`).  The source handles no selection errors. -/
inductive SelectError where
  | indexError
  deriving Repr, DecidableEq

/-- The `for instance_property in instances.columns` loop of
`find_best_instance_property`.  `calcf p` abstracts
`calculate_fitting_funcs(instances, timestats, component_name, p)` (see
`calculate_fitting_funcs` for the concrete inner search).  Faithful to the
source, `best_r2` is threaded through UNCHANGED: the source initializes
`best_r2 = 0` and never assigns it again, so every property is compared
against 0, not against the running best.  `fits[0].r2` on an empty fit
list raises. -/
def fbip_go (calcf : String → List Fit) :
    List String → ℚ → List Fit → Except SelectError (List Fit)
  | [], _, best_fits => .ok best_fits
  | p :: rest, best_r2, best_fits =>
    if p = "id" then fbip_go calcf rest best_r2 best_fits
    else
      match calcf p with
      | [] => .error .indexError
      | f :: fs =>
        fbip_go calcf rest best_r2 (if f.r2 > best_r2 then f :: fs else best_fits)

/-- Embeds `find_best_instance_property`: scan every non-`id` column with
`best_r2 = 0` and `best_fits = []` initially. -/
def find_best_instance_property (columns : List String)
    (calcf : String → List Fit) : Except SelectError (List Fit) :=
  fbip_go calcf columns 0 []

/-- One entry of `treemap_labels`, the analytical output `analyze_complexity`
retains per component for reporting. -/
structure TreemapLabel where
  component : String
  property : String
  function : String
  r2 : ℚ
  deriving Repr, DecidableEq

/-- The per-component loop of `analyze_complexity`: for each component run
the outer property search, take `best = fits[0]` (raising on an empty
list), and record the label `Θ(best.name)` with the winning property and
its R².  The chart drawing and the treemap figure are external
presentation and not modelled. -/
def analyze_go (columns : List String) (calcf : String → String → List Fit) :
    List String → Except SelectError (List TreemapLabel)
  | [] => .ok []
  | c :: cs => do
    let fits ← find_best_instance_property columns (calcf c)
    match fits with
    | [] => .error .indexError
    | best :: _ =>
      let rest ← analyze_go columns calcf cs
      .ok ({ component := c, property := best.instance_prop,
             function := "Θ(" ++ best.name ++ ")", r2 := best.r2 } :: rest)

/-- Embeds `analyze_complexity`'s analytical core: iterate over
`timestats["component"].unique()` (distinct components in first-occurrence
order) and collect the per-component labels. -/
def analyze_complexity (timestats : List TimeRow) (columns : List String)
    (calcf : String → String → List Fit) : Except SelectError (List TreemapLabel) :=
  analyze_go columns calcf (pdUnique (timestats.map (fun r => r.component)))

/-- Specification of a perfectly balanced trace, written from the spec's
description of the Trace Folder: `names` is the list of qualified names of
the frames already open (oldest first), and the records pair each closed
frame's CallPath — the slash-join of all frames open at the exit event,
including the frame being closed — with its elapsed
(exit − enter)/1,000,000 milliseconds, in closing order.  Balanced traces
are empty, concatenations of balanced traces, or an enter/exit pair with
matching qualified names wrapping a balanced trace. -/
inductive FoldsTo : List Event → List String → List (String × ℚ) → Prop
  | nil (names : List String) : FoldsTo [] names []
  | seq {l1 l2 : List Event} {names : List String} {r1 r2 : List (String × ℚ)} :
      FoldsTo l1 names r1 → FoldsTo l2 names r2 → FoldsTo (l1 ++ l2) names (r1 ++ r2)
  | wrap {e x : Event} {l : List Event} {names : List String} {r : List (String × ℚ)} :
      e.enter = true → x.enter = false → qname x = qname e →
      FoldsTo l (names ++ [qname e]) r →
      FoldsTo (e :: (l ++ [x])) names
        (r ++ [(joinSlash (names ++ [qname e]),
                ((x.when : ℚ) - (e.when : ℚ)) / 1000000)])

/-! Section: Concrete example inputs used to evaluate the embedded pipeline -/

/-- A trace document whose exit event name does not match the open frame. -/
def badDoc : InstanceDoc := ⟨"i1", [⟨0, true, "A", "a"⟩, ⟨5, false, "B", "b"⟩]⟩

/-- A well-formed trace document: one balanced enter/exit pair, 1 ms long. -/
def goodDoc : InstanceDoc := ⟨"i2", [⟨0, true, "A", "a"⟩, ⟨1000000, false, "A", "a"⟩]⟩

/-- A ranked fit list for property "A" whose top R² is 0.99. -/
def fitA : Fit :=
  { name := "a \\cdot n", instance_prop := "A", r2 := 99/100, popt := 1, data := [] }

/-- A ranked fit list for property "B" whose top R² is 0.5. -/
def fitB : Fit :=
  { name := "a \\cdot n", instance_prop := "B", r2 := 1/2, popt := 1, data := [] }

/-- An inner-search result: property "A" fits with R² 0.99, property "B"
with R² 0.5 — the scenario of the selector-correctness spec test. -/
def calcAB : String → List Fit :=
  fun p => if p = "A" then [fitA] else if p = "B" then [fitB] else []

/-- A timing row for a component with no usable fit anywhere. -/
def rowBad : TimeRow := ⟨"i1", "bad", "", "bad", 1⟩

/-- A timing row for a perfectly fittable component. -/
def rowGood : TimeRow := ⟨"i1", "good", "", "good", 1⟩

/-- A perfect fit (R² = 1) for the fittable component. -/
def goodFit : Fit := { name := "a", instance_prop := "n", r2 := 1, popt := 1, data := [] }

/-- An inner-search result: component "bad" has zero surviving fits for
every property, component "good" fits perfectly against property "n". -/
def calcC2 : String → String → List Fit :=
  fun c p => if c = "good" ∧ p = "n" then [goodFit] else []

/-- The fit produced for the series x = [1, 2], y = [0, 10] by the constant
candidate with fitted parameter 100: its R² is -361, negative. -/
def fitNeg : Fit :=
  { name := "a", instance_prop := "n", r2 := -361, popt := 100,
    data := [(1, 100), (2, 100)] }

/-- A property table knowing only instance "i1" (property value 10). -/
def instW : List InstRow := [⟨"i1", fun _ => 10⟩]

/-- Timing rows for instances "i1" and "i2" of component "X::solve" —
note "i2" is absent from the property table `instW`. -/
def tsW : List TimeRow :=
  [⟨"i1", "X::solve", "", "X::solve", 5⟩, ⟨"i2", "X::solve", "", "X::solve", 50⟩]

/-! Section: Helper lemmas about the event fold -/

/-- Composition: a successful fold of a prefix continues with the remaining
events from the state it reached. -/
theorem foldEvents_append (l1 l2 : List Event) (s : List (String × Int))
    (acc acc' : List (String × ℚ)) (s' : List (String × Int))
    (h : foldEvents l1 s acc = .ok (acc', s')) :
    foldEvents (l1 ++ l2) s acc = foldEvents l2 s' acc' := by
  induction l1 generalizing s acc with
  | nil =>
    simp only [foldEvents, Except.ok.injEq, Prod.mk.injEq] at h
    obtain ⟨rfl, rfl⟩ := h
    simp
  | cons e rest ih =>
    by_cases he : e.enter = true
    · simp only [List.cons_append, foldEvents, he, if_true] at h ⊢
      exact ih _ _ h
    · cases s with
      | nil => simp [foldEvents, he] at h
      | cons start st =>
        by_cases hq : qname e = start.1
        · simp only [List.cons_append, foldEvents, he, if_false, hq, ne_eq,
            not_true_eq_false, ite_false] at h ⊢
          exact ih _ _ h
        · simp [foldEvents, he, hq] at h

/-- Running the fold on a balanced trace from any stack whose open-frame
names (oldest first) are `names` appends exactly the specified records and
returns the stack untouched. -/
theorem FoldsTo.run {evs : List Event} {names : List String}
    {recs : List (String × ℚ)} (h : FoldsTo evs names recs) :
    ∀ (stack : List (String × Int)) (acc : List (String × ℚ)),
      names = (stack.map Prod.fst).reverse →
      foldEvents evs stack acc = .ok (acc ++ recs, stack) := by
  induction h with
  | nil names =>
    intro stack acc _
    simp [foldEvents]
  | seq h1 h2 ih1 ih2 =>
    intro stack acc hn
    rw [foldEvents_append _ _ _ _ _ _ (ih1 stack acc hn), ih2 stack _ hn,
      List.append_assoc]
  | wrap he hx hq hf ih =>
    intro stack acc hn
    rename_i e x l names r
    have hn' : names ++ [qname e] =
        ((((qname e, e.when) :: stack)).map Prod.fst).reverse := by
      simp [hn]
    have ihl := ih ((qname e, e.when) :: stack) acc hn'
    simp only [foldEvents, he, if_true]
    rw [foldEvents_append _ _ _ _ _ _ ihl]
    simp only [foldEvents, hx, Bool.false_eq_true, if_false, hq, ne_eq,
      not_true_eq_false, ite_false, get_full_name, List.map_cons,
      List.reverse_cons, ← hn, List.append_assoc]

/-! Section: C5: balanced traces fold to exact elapsed times under exact paths -/

/-- C5: for every event list forming perfectly balanced enter/exit pairs
(`FoldsTo evs [] recs` holds, with `recs` the closed frames' records as
the spec describes them), trace folding succeeds and records, for each
closed frame, exactly (exitTimestamp − enterTimestamp)/1,000,000 under the
CallPath obtained by slash-joining the qualified names of all frames open
at the exit event, including the frame being closed — so the produced
CallPaths match the nesting depth and order of the input. -/
theorem fold_balanced_roundtrip {evs : List Event} {recs : List (String × ℚ)}
    (h : FoldsTo evs [] recs) : foldEvents evs [] [] = .ok (recs, []) := by
  simpa using h.run [] [] rfl

/-- Witness for C5: a two-level nested balanced trace ("A::m" wrapping
"B::m") folds to elapsed 2 ms under "A::m/B::m" and 7 ms under "A::m". -/
theorem fold_balanced_roundtrip_witness :
    foldEvents [⟨0, true, "A", "m"⟩, ⟨1000000, true, "B", "m"⟩,
      ⟨3000000, false, "B", "m"⟩, ⟨7000000, false, "A", "m"⟩] [] [] =
    .ok ([("A::m/B::m", 2), ("A::m", 7)], []) := by
  have hd := @FoldsTo.wrap ⟨0, true, "A", "m"⟩ ⟨7000000, false, "A", "m"⟩
    [⟨1000000, true, "B", "m"⟩, ⟨3000000, false, "B", "m"⟩] [] _ rfl rfl rfl
    (@FoldsTo.wrap ⟨1000000, true, "B", "m"⟩ ⟨3000000, false, "B", "m"⟩ [] _ _
      rfl rfl rfl (FoldsTo.nil _))
  have h2 := fold_balanced_roundtrip hd
  rw [show ([] ++ [(joinSlash (([] ++ [qname ⟨0, true, "A", "m"⟩]) ++
        [qname ⟨1000000, true, "B", "m"⟩]),
        (((3000000 : Int) : ℚ) - ((1000000 : Int) : ℚ)) / 1000000)]) ++
      [(joinSlash ([] ++ [qname ⟨0, true, "A", "m"⟩]),
        (((7000000 : Int) : ℚ) - ((0 : Int) : ℚ)) / 1000000)] =
      [("A::m/B::m", 2), ("A::m", 7)] from by with_unfolding_all decide] at h2
  exact h2

/-! Section: C6: mismatched exit names raise StackMismatch -/

/-- C6: for every trace reaching a state with nesting depth ≥ 1 (the open
stack is `top :: st`), an exit event whose qualified name differs from the
top frame's name makes the fold raise the StackMismatch error, aborting
processing of that instance's trace (whatever events follow are never
consumed). -/
theorem exit_mismatch_raises (pre rest : List Event) (e : Event)
    (top : String × Int) (st : List (String × Int)) (acc : List (String × ℚ))
    (hok : foldEvents pre [] [] = .ok (acc, top :: st))
    (hexit : e.enter = false) (hne : qname e ≠ top.1) :
    foldEvents (pre ++ e :: rest) [] [] =
      .error (.stackMismatch (qname e) top.1) := by
  rw [foldEvents_append _ _ _ _ _ _ hok]
  simp [foldEvents, hexit, hne]

/-- Witness for C6: after entering "A::a", an exit named "B::b" raises
StackMismatch. -/
theorem exit_mismatch_raises_witness :
    foldEvents [⟨0, true, "A", "a"⟩, ⟨5, false, "B", "b"⟩] [] [] =
      .error (.stackMismatch ("B::b") ("A::a")) := by
  have h := exit_mismatch_raises [⟨0, true, "A", "a"⟩] [] ⟨5, false, "B", "b"⟩
    ("A::a", 0) [] [] (by with_unfolding_all decide) rfl
    (by with_unfolding_all decide)
  simpa using h

/-! Section: C10: an exit on an empty stack pops before comparing names -/

/-- C10: for every trace whose event list reaches an exit event while the
call stack is empty, the fold raises the unguarded empty-pop error (the
`IndexError` of `stack.pop()`), regardless of the exit event's name —
no name comparison happens — and this error is distinct from
StackMismatch (and no TruncatedTrace case exists in the code at all);
moreover the CallPath computed for the empty stack is the empty string. -/
theorem exit_empty_stack_pops (pre rest : List Event) (e : Event)
    (acc : List (String × ℚ))
    (hok : foldEvents pre [] [] = .ok (acc, []))
    (hexit : e.enter = false) :
    foldEvents (pre ++ e :: rest) [] [] = .error .emptyPop ∧
      get_full_name [] = "" ∧
      (∀ g ex, FoldError.emptyPop ≠ FoldError.stackMismatch g ex) := by
  refine ⟨?_, rfl, fun g ex h => by cases h⟩
  rw [foldEvents_append _ _ _ _ _ _ hok]
  simp [foldEvents, hexit]

/-- Witness for C10: a lone exit event (empty preceding trace) raises the
empty-pop error. -/
theorem exit_empty_stack_pops_witness :
    foldEvents ([] ++ ⟨0, false, "A", "a"⟩ :: []) [] [] = .error .emptyPop ∧
      get_full_name [] = "" ∧
      (∀ g ex, FoldError.emptyPop ≠ FoldError.stackMismatch g ex) :=
  exit_empty_stack_pops [] [] ⟨0, false, "A", "a"⟩ [] rfl rfl

/-! Section: C3: no end-of-trace stack check exists -/

/-- Counterexample to C3: a trace consisting of a single enter event leaves
one frame open when all events are consumed, yet the fold returns
successfully (no TruncatedTrace — or any — error is reported); the open
frame simply remains on the final stack, recorded nowhere. -/
theorem truncated_trace_not_reported :
    foldEvents [⟨0, true, "A", "a"⟩] [] [] = .ok ([], [("A::a", 0)]) := by
  with_unfolding_all decide

/-- C3 as amended: the fold never inspects the stack after the last event.
Appending a trailing unmatched enter event to any successfully folding
trace still succeeds, with identical records and no error of any kind: the
leftover open frame is silently ignored. -/
theorem trailing_enter_silently_ignored (evs : List Event) (e : Event)
    (s fstack : List (String × Int)) (acc recs : List (String × ℚ))
    (henter : e.enter = true)
    (hok : foldEvents evs s acc = .ok (recs, fstack)) :
    foldEvents (evs ++ [e]) s acc = .ok (recs, (qname e, e.when) :: fstack) := by
  rw [foldEvents_append _ _ _ _ _ _ hok]
  simp [foldEvents, henter]

/-- Witness for the amended C3: appending an unmatched enter to a balanced
one-call trace still returns successfully with the same records. -/
theorem trailing_enter_silently_ignored_witness :
    foldEvents ([⟨0, true, "A", "a"⟩, ⟨1000000, false, "A", "a"⟩] ++
      [⟨2000000, true, "B", "b"⟩]) [] [] =
      .ok ([("A::a", 1)], [("B::b", 2000000)]) := by
  have h := trailing_enter_silently_ignored
    [⟨0, true, "A", "a"⟩, ⟨1000000, false, "A", "a"⟩] ⟨2000000, true, "B", "b"⟩
    [] [] [] [("A::a", 1)] rfl (by with_unfolding_all decide)
  simpa using h

/-! Section: C4: a fatal per-instance error aborts the whole batch -/

/-- A document whose processing raises makes the whole sequential loop of
`fold_profiler_data` raise: there is no per-instance error isolation. -/
theorem fold_profiler_data_go_error (docs : List InstanceDoc)
    (d : InstanceDoc) (err : FoldError) (hmem : d ∈ docs)
    (herr : processDoc d = .error err) :
    ∃ e, fold_profiler_data_go docs = .error e := by
  induction docs with
  | nil => cases hmem
  | cons h t ih =>
    cases hh : processDoc h with
    | error e0 =>
      exact ⟨e0, by simp [fold_profiler_data_go, hh, Bind.bind, Except.bind]⟩
    | ok rows =>
      rcases List.mem_cons.mp hmem with rfl | hmem'
      · rw [hh] at herr; cases herr
      · obtain ⟨e, he⟩ := ih hmem'
        exact ⟨e, by simp [fold_profiler_data_go, hh, he, Bind.bind, Except.bind]⟩

/-- Counterexample to C4: with two trace documents where the first has a
mismatched exit, `fold_profiler_data` raises for the whole batch — the
second (well-formed) document contributes nothing — while processing the
good document alone yields its timing row, so the good instance was lost
to the other instance's error. -/
theorem fatal_error_kills_batch :
    fold_profiler_data [badDoc, goodDoc] =
      .error (.stackMismatch ("B::b") ("A::a")) ∧
    fold_profiler_data [goodDoc] =
      .ok [{ instanceId := "i2", component := "A::a", parent := "",
             child := "A::a", time := 1 }] := by
  constructor
  · with_unfolding_all decide
  · with_unfolding_all decide

/-- C4 as amended: when any document in the batch fails to process
(StackMismatch or empty-pop), `fold_profiler_data` raises for the entire
batch and produces no output for any instance. -/
theorem batch_error_propagates (docs : List InstanceDoc) (d : InstanceDoc)
    (err : FoldError) (hmem : d ∈ docs) (herr : processDoc d = .error err) :
    ∃ e, fold_profiler_data docs = .error e := by
  obtain ⟨e, he⟩ := fold_profiler_data_go_error docs d err hmem herr
  exact ⟨e, by simp [fold_profiler_data, he, Except.map]⟩

/-- Witness for the amended C4: the bad document's error poisons the
two-document batch. -/
theorem batch_error_propagates_witness :
    ∃ e, fold_profiler_data [badDoc, goodDoc] = .error e :=
  batch_error_propagates [badDoc, goodDoc] badDoc
    (.stackMismatch ("B::b") ("A::a")) (by simp)
    (by with_unfolding_all decide)

/-! Section: C1: the outer search never updates best_r2 -/

/-- C1 (code bug, evaluated at the failing input): scanning property "A"
(top R² = 0.99) before property "B" (top R² = 0.5), the source's
`find_best_instance_property` returns property B's fits, not property A's:
`best_r2` is initialized to 0 and never reassigned, so every property is
compared against 0 and the LAST property whose top R² exceeds 0 wins,
contradicting both the spec and the evident intent of the code
(`best_r2`, `best_fits`, `max_r2 > best_r2`). -/
theorem selector_ignores_best_r2 :
    find_best_instance_property ["id", "A", "B"] calcAB = .ok [fitB] ∧
      fitB.r2 < fitA.r2 := by
  constructor
  · with_unfolding_all decide
  · with_unfolding_all decide

/-! Section: C2: an unfittable component crashes the analysis -/

set_option maxRecDepth 4000 in
/-- Counterexample to C2: with component "bad" having zero usable
(property, function) fits for every property and component "good" fitting
perfectly, the analysis raises the IndexError (`fits[0]` on an empty list)
instead of excluding "bad" and continuing: no output at all is produced,
although "good" alone would have been reported. -/
theorem unfittable_component_crashes :
    analyze_complexity [rowBad, rowGood] ["id", "n"] calcC2 =
      .error .indexError ∧
    analyze_complexity [rowGood] ["id", "n"] calcC2 =
      .ok [{ component := "good", property := "n", function := "Θ(a)", r2 := 1 }] := by
  constructor
  · with_unfolding_all decide
  · with_unfolding_all decide

/-- The property loop raises the IndexError whenever every property's fit
list is empty and at least one non-identifier column exists, regardless of
the accumulated state. -/
theorem fbip_go_all_empty (calcf1 : String → List Fit) :
    ∀ (columns : List String) (b : ℚ) (bf : List Fit),
      (∃ p ∈ columns, p ≠ "id") → (∀ p, calcf1 p = []) →
      fbip_go calcf1 columns b bf = .error .indexError := by
  intro columns
  induction columns with
  | nil =>
    intro b bf hcol _
    obtain ⟨p, hp, _⟩ := hcol
    cases hp
  | cons q rest ih =>
    intro b bf hcol hempty
    by_cases hq : q = "id"
    · simp only [fbip_go, if_pos hq]
      apply ih _ _ _ hempty
      obtain ⟨p, hp, hpne⟩ := hcol
      rcases List.mem_cons.mp hp with rfl | h
      · exact absurd hq hpne
      · exact ⟨p, h, hpne⟩
    · simp [fbip_go, hq, hempty q]

/-- A component with an all-empty inner search makes the outer search
raise the IndexError. -/
theorem fbip_all_empty (columns : List String) (calcf1 : String → List Fit)
    (hcol : ∃ p ∈ columns, p ≠ "id") (hempty : ∀ p, calcf1 p = []) :
    find_best_instance_property columns calcf1 = .error .indexError :=
  fbip_go_all_empty calcf1 columns 0 [] hcol hempty

/-- If any component of the list makes the outer search raise, the whole
per-component loop of `analyze_complexity` raises. -/
theorem analyze_go_stuck (columns : List String)
    (calcf : String → String → List Fit) (comps : List String) (c : String)
    (hc : c ∈ comps)
    (hfb : find_best_instance_property columns (calcf c) = .error .indexError) :
    analyze_go columns calcf comps = .error .indexError := by
  induction comps with
  | nil => cases hc
  | cons c0 cs ih =>
    rcases List.mem_cons.mp hc with rfl | hc'
    · simp [analyze_go, hfb, Bind.bind, Except.bind]
    · cases hf : find_best_instance_property columns (calcf c0) with
      | error e => cases e; simp [analyze_go, hf, Bind.bind, Except.bind]
      | ok fits =>
        cases fits with
        | nil => simp [analyze_go, hf, Bind.bind, Except.bind]
        | cons best rest =>
          simp [analyze_go, hf, ih hc', Bind.bind, Except.bind]

/-- Accumulator form of membership in `pdUnique`. -/
theorem pdUnique_mem_aux :
    ∀ (l : List String) (acc : List String) (c : String),
      c ∈ acc ∨ c ∈ l →
      c ∈ List.foldl (fun acc x => if x ∈ acc then acc else acc ++ [x]) acc l
  | [], _, _, h => by
    rcases h with h | h
    · exact h
    · cases h
  | a :: t, acc, c, h => by
    simp only [List.foldl_cons]
    apply pdUnique_mem_aux t
    by_cases ha : a ∈ acc
    · simp only [if_pos ha]
      rcases h with h | h
      · exact Or.inl h
      · rcases List.mem_cons.mp h with rfl | h2
        · exact Or.inl ha
        · exact Or.inr h2
    · simp only [if_neg ha]
      rcases h with h | h
      · exact Or.inl (List.mem_append_left _ h)
      · rcases List.mem_cons.mp h with rfl | h2
        · exact Or.inl (List.mem_append_right _ (List.mem_singleton.mpr rfl))
        · exact Or.inr h2

/-- Every element of a list appears in its first-occurrence
deduplication. -/
theorem mem_pdUnique {l : List String} {c : String} (hc : c ∈ l) :
    c ∈ pdUnique l :=
  pdUnique_mem_aux l [] c (Or.inr hc)

/-- C2 as amended: a component for which no (property, function)
combination yields a usable fit makes the whole analysis raise the
IndexError from `fits[0]` on an empty list; no component — including the
perfectly fittable ones — is reported, instead of the unfittable component
being excluded and processing continuing. -/
theorem unfittable_component_aborts (timestats : List TimeRow)
    (columns : List String) (calcf : String → String → List Fit) (c : String)
    (hc : c ∈ timestats.map (fun r => r.component))
    (hcol : ∃ p ∈ columns, p ≠ "id")
    (hempty : ∀ p, calcf c p = []) :
    analyze_complexity timestats columns calcf = .error .indexError :=
  analyze_go_stuck columns calcf _ c (mem_pdUnique hc)
    (fbip_all_empty columns (calcf c) hcol hempty)

/-- Witness for the amended C2. -/
theorem unfittable_component_aborts_witness :
    analyze_complexity [rowBad] ["id", "n"] (fun _ _ => []) =
      .error .indexError :=
  unfittable_component_aborts [rowBad] ["id", "n"] (fun _ _ => []) "bad"
    (by simp [rowBad]) ⟨"n", by simp, by simp⟩ (fun _ => rfl)

/-! Section: C8: the Model Fitter rejects exactly on NaN covariance, R² unclamped -/

/-- C8: `calculate_fitting_func` returns no fit (a recoverable skip — the
`Option` is `none`, no exception) exactly when the curve-fit covariance
matrix contains NaN values; otherwise it returns a fit whose R² equals
1 − RSS/TSS, with RSS the sum of squared residuals against the predicted
values f(xᵢ, popt) and TSS the sum of squared deviations of y from its
mean; R² is not clamped: at the concrete series x = [1, 2], y = [0, 10]
with fitted constant 100 it is −361 < 0. -/
theorem calculate_fitting_func_spec (x y : List ℚ) (f_name : String)
    (f : ℚ → ℚ → ℚ) (instance_property : String) (cf : CurveFitResult) :
    (calculate_fitting_func x y f_name f instance_property cf = none ↔
      cf.pcovHasNaN = true)
    ∧ (∀ fit, calculate_fitting_func x y f_name f instance_property cf = some fit →
        fit.r2 = 1 -
          ((y.zip (x.map (fun xi => f xi cf.popt))).map
            (fun p => (p.1 - p.2) ^ 2)).sum /
          ((y.map (fun yi => (yi - pmean y) ^ 2)).sum))
    ∧ (∃ fitneg, calculate_fitting_func [1, 2] [0, 10] "a" (fun _ a => a) "n"
        ⟨100, false⟩ = some fitneg ∧ fitneg.r2 < 0) := by
  refine ⟨?_, ?_, ?_⟩
  · cases h : cf.pcovHasNaN <;> simp [calculate_fitting_func, h]
  · intro fit hfit
    cases h : cf.pcovHasNaN
    · rw [calculate_fitting_func, if_neg (by simp [h])] at hfit
      injection hfit with hfit
      rw [← hfit]
    · rw [calculate_fitting_func, if_pos (by simp [h])] at hfit
      cases hfit
  · exact ⟨fitNeg, by with_unfolding_all decide, by norm_num [fitNeg]⟩

/-- Witness for C8: a NaN covariance yields no fit. -/
theorem calculate_fitting_func_spec_witness :
    calculate_fitting_func [] [] "a" (fun _ a => a) "p" ⟨0, true⟩ = none :=
  (calculate_fitting_func_spec [] [] "a" (fun _ a => a) "p" ⟨0, true⟩).1.mpr rfl

/-! Section: C7: the inner search is exhaustive, sorted by R², stable on ties -/

/-- C7: `calculate_fitting_funcs` runs the Model Fitter once per candidate
of the fixed catalog `get_functions` in declaration order and drops the
failures (that is the definition of `surviving_fits`, restated here as the
first conjunct), and returns exactly those surviving fits (a permutation),
sorted by R² descending, where any two surviving fits with identical R²
keep their relative — catalog declaration — order.  The embedding is a
pure function of its arguments, hence deterministic across runs. -/
theorem calculate_fitting_funcs_spec (cf : String → CurveFitResult)
    (log pow2 : ℚ → ℚ) (instances : List InstRow) (timestats : List TimeRow)
    (component_name instance_property : String) :
    (surviving_fits cf log pow2 instances timestats component_name
        instance_property =
      (get_functions log pow2).filterMap (fun kv =>
        calculate_fitting_func
          ((join_instance_timestats instances timestats component_name
            instance_property).map Prod.fst)
          ((join_instance_timestats instances timestats component_name
            instance_property).map Prod.snd)
          kv.1 kv.2 instance_property (cf kv.1)))
    ∧ (calculate_fitting_funcs cf log pow2 instances timestats component_name
        instance_property).Perm
        (surviving_fits cf log pow2 instances timestats component_name
          instance_property)
    ∧ (calculate_fitting_funcs cf log pow2 instances timestats component_name
        instance_property).Pairwise (fun a b => b.r2 ≤ a.r2)
    ∧ (∀ a b : Fit,
        List.Sublist [a, b] (surviving_fits cf log pow2 instances timestats
          component_name instance_property) →
        a.r2 = b.r2 →
        List.Sublist [a, b] (calculate_fitting_funcs cf log pow2 instances
          timestats component_name instance_property)) := by
  refine ⟨rfl, List.perm_insertionSort _ _, ?_, ?_⟩
  · haveI : IsTotal Fit (fun a b => b.r2 ≤ a.r2) := ⟨fun a b => le_total b.r2 a.r2⟩
    haveI : IsTrans Fit (fun a b => b.r2 ≤ a.r2) :=
      ⟨fun _ _ _ hab hbc => le_trans hbc hab⟩
    exact List.sorted_insertionSort _ _
  · intro a b hsub heq
    exact List.pair_sublist_insertionSort (le_of_eq heq.symm) hsub

/-- Witness for C7: with an empty series every candidate survives with
R² = 1 (a six-way tie), and the constant and logarithmic candidates — the
first two of the catalog — appear in declaration order in the output. -/
theorem calculate_fitting_funcs_spec_witness :
    List.Sublist
      [{ name := "a", instance_prop := "n", r2 := 1, popt := 1, data := [] },
       { name := "a \\cdot \\log(n)", instance_prop := "n", r2 := 1, popt := 1,
         data := [] }]
      (calculate_fitting_funcs (fun _ => ⟨1, false⟩) id id [] [] "c" "n") :=
  (calculate_fitting_funcs_spec (fun _ => ⟨1, false⟩) id id [] [] "c" "n").2.2.2
    _ _ (by with_unfolding_all decide) (by with_unfolding_all decide)

/-! Section: C9: the Property Joiner joins, averages and sorts — but silently -/

/-- Counterexample to C9: instance "i2" appears in the timings but not in
the property table; it is dropped from the join (the output has only the
group of i1's property value 10, averaging only i1's time 5), but NO
warning is emitted — the source function contains no warning of any kind,
so the drop is silent, contradicting the claimed "with a warning". -/
theorem missing_instance_dropped_silently :
    join_instance_timestats instW tsW ("X::solve") ("n") = [(10, 5)] ∧
      join_instance_timestats_log instW tsW ("X::solve") ("n") = [] :=
  ⟨by with_unfolding_all decide, rfl⟩

/-- C9 as amended: the Property Joiner right-joins property values onto the
component's timing rows by instance id, SILENTLY (no warning — the log of
printed lines is empty) dropping timing rows whose instance is absent from
the property table, averages elapsed time across instances sharing the
same property value, and returns the groups sorted strictly ascending by
property value: the output keys are strictly increasing, each key's value
is the group mean, and a key occurs exactly when some timing row of the
component joins to it. -/
theorem join_instance_timestats_spec (instances : List InstRow)
    (timestats : List TimeRow) (component_name instance_property : String) :
    ((join_instance_timestats instances timestats component_name
        instance_property).map Prod.fst).Pairwise (· < ·)
    ∧ (∀ k m, (k, m) ∈ join_instance_timestats instances timestats
        component_name instance_property →
        m = groupMean (joinedRows instances timestats component_name
          instance_property) k)
    ∧ (∀ k : ℚ, k ∈ (join_instance_timestats instances timestats
        component_name instance_property).map Prod.fst ↔
        some k ∈ (joinedRows instances timestats component_name
          instance_property).map Prod.fst)
    ∧ join_instance_timestats_log instances timestats component_name
        instance_property = [] := by
  unfold join_instance_timestats
  set xy := joinedRows instances timestats component_name instance_property
  set skeys := List.insertionSort (fun a b : ℚ => a ≤ b)
    ((xy.filterMap Prod.fst).dedup) with hskeys
  have hmapfst : (skeys.map (fun k => (k, groupMean xy k))).map Prod.fst = skeys := by
    rw [List.map_map]
    simp [Function.comp_def]
  refine ⟨?_, ?_, ?_, rfl⟩
  · rw [hmapfst]
    have hsorted : skeys.Sorted (· ≤ ·) := List.sorted_insertionSort _ _
    have hnodup : skeys.Nodup :=
      ((List.perm_insertionSort _ _).symm.nodup (List.nodup_dedup _))
    exact hsorted.lt_of_le hnodup
  · intro k m hkm
    obtain ⟨k2, hk2, hk2e⟩ := List.mem_map.mp hkm
    obtain ⟨rfl, rfl⟩ := Prod.mk.injEq .. ▸ hk2e
    rfl
  · intro k
    rw [hmapfst, hskeys]
    rw [List.Perm.mem_iff (List.perm_insertionSort _ _), List.mem_dedup]
    constructor
    · intro hk
      obtain ⟨it, hit, hite⟩ := List.mem_filterMap.mp hk
      exact List.mem_map.mpr ⟨it, hit, hite⟩
    · intro hk
      obtain ⟨it, hit, hite⟩ := List.mem_map.mp hk
      exact List.mem_filterMap.mpr ⟨it, hit, hite⟩

/-- Witness for the amended C9: in the concrete join, the value reported
for property value 10 is the group mean of the joined rows at key 10. -/
theorem join_instance_timestats_spec_witness :
    (5 : ℚ) = groupMean (joinedRows instW tsW ("X::solve") ("n")) 10 :=
  (join_instance_timestats_spec instW tsW ("X::solve") ("n")).2.1 10 5
    (by with_unfolding_all decide)
